import Mathlib

/-!
Verification of the visual-servoing control-law engine of this repository
(ViSP task-function core: `vpServo`, `vpBasicFeature`, `vpFeaturePoint`,
adaptive gain, Moore–Penrose pseudo-inverse service).

The repository ships the header `src/ViSP/src/visual-feature/vpFeaturePoint.h`
and two example programs; the engine implementation (`vpServo.cpp`,
`vpMatrix` pseudo-inverse, `vpAdaptiveGain`) is not among the source files,
so those parts are modelled from the specification, as indicated on each
definition.  Machine reals are modelled as `ℝ`; vectors as `List ℝ`;
stacked matrices as row lists converted to `Matrix (Fin m) (Fin 6) ℝ`.
-/

namespace Visp

open Matrix

/-- Modelled from the spec: error taxonomy (§7) — `ConfigurationError` is
fatal to `computeControlLaw`, `DimensionMismatch` is fatal at `addFeature`
time.  Rank degradation is not an error value (non-fatal, flagged). -/
inductive VsError where
  | configurationError
  | dimensionMismatch
deriving DecidableEq

/-- Modelled from the spec: feature kinds (§3) — the kind determines the
error/interaction formulas; a pair's two members must share a kind. -/
inductive FeatureKind where
  | point
  | translation
  | thetaU
deriving DecidableEq

/-- Modelled from the spec: a visual feature (§3, §4.1) exposing its
dimension (`s.length`), current value vector `s`, and the interaction-matrix
block `L` (`dim` rows of 6 columns) it produces. -/
structure vpBasicFeature where
  kind : FeatureKind
  s : List ℝ
  L : List (List ℝ)

/-- Modelled from the spec: restrict a vector (or a row list) to the
components selected by the bit-per-component mask (§3). -/
def applyMask : List Bool → List α → List α
  | true :: m, x :: l => x :: applyMask m l
  | false :: m, _ :: l => applyMask m l
  | _, _ => []

/-- Modelled from the spec (§4.1): `error(desired, mask)` is the
minimal-representation difference of the two value vectors restricted to the
mask; it fails with `DimensionMismatch` when `desired` is a different kind
or dimension, with no side effect beyond the pure computation. -/
def vpBasicFeature.error (sF sStar : vpBasicFeature) (select : List Bool) :
    Except VsError (List ℝ) :=
  if sF.kind = sStar.kind ∧ sF.s.length = sStar.s.length then
    .ok (applyMask select (List.zipWith (fun a b => a - b) sF.s sStar.s))
  else
    .error .dimensionMismatch

/-- Servo mode (§3): where the camera is mounted and in which space the
velocity is expressed. -/
inductive ServoType where
  | EYEINHAND_CAMERA
  | EYEINHAND_JOINT
  | EYETOHAND_CAMERA
  | EYETOHAND_JOINT
deriving DecidableEq

/-- Interaction-matrix mode (§3, §4.2 step 1). -/
inductive InteractionMatrixType where
  | CURRENT
  | DESIRED
  | MEAN
deriving DecidableEq

/-- Modelled from the spec (§4.2): the adaptive gain law
`λ(x) = (λ0 − λ∞)·exp(−slope·x/(λ0 − λ∞)) + λ∞`. -/
noncomputable def adaptiveLambda (lambda0 lambdaInf slope x : ℝ) : ℝ :=
  (lambda0 - lambdaInf) * Real.exp (-(slope * x) / (lambda0 - lambdaInf)) + lambdaInf

/-- Gain configuration: a constant scalar or the adaptive law parameters. -/
inductive GainLaw where
  | constant (lambda : ℝ)
  | adaptive (lambda0 lambdaInf slope : ℝ)

/-- Gain value as a function of the error norm `‖e‖`. -/
noncomputable def GainLaw.value : GainLaw → ℝ → ℝ
  | .constant l, _ => l
  | .adaptive l0 li sl, x => adaptiveLambda l0 li sl x

/-- A stacked feature pair: current feature, desired feature, selection
mask (§3). -/
structure FeaturePair where
  current : vpBasicFeature
  desired : vpBasicFeature
  select : List Bool

/-- Representation invariant of a pair (§3): members share the dimension and
each member's interaction block has one row per component. -/
def FeaturePair.WF (p : FeaturePair) : Prop :=
  p.current.s.length = p.desired.s.length ∧
  p.current.L.length = p.current.s.length ∧
  p.desired.L.length = p.desired.s.length

/-- The pair's selected-component count: how many of its components the mask
retains. -/
def FeaturePair.selCount (p : FeaturePair) : ℕ :=
  (p.select.take p.current.s.length).count true

/-- Modelled from the spec (§3, §4.2): the task — ordered pair list, servo
mode and gain with their initialization flags (`Option`), interaction-matrix
mode, and the last computed error vector and stacked matrix kept for
introspection. -/
structure vpServo where
  featureList : List FeaturePair
  servoType : Option ServoType
  interactionType : InteractionMatrixType
  lambda : Option GainLaw
  error : List ℝ
  L : List (List ℝ)

/-- A freshly created task: empty stack, servo mode and gain unset. -/
def vpServo.init : vpServo :=
  { featureList := [], servoType := none, interactionType := .CURRENT,
    lambda := none, error := [], L := [] }

/-- Modelled from the spec (§4.2): `addFeature` appends a pair, failing with
`DimensionMismatch` on kind/size mismatch; on failure the task is returned
unchanged (no side effect). -/
def vpServo.addFeature (task : vpServo) (sF sStar : vpBasicFeature)
    (select : List Bool) : vpServo × Option VsError :=
  if sF.kind = sStar.kind ∧ sF.s.length = sStar.s.length then
    ({ task with featureList := task.featureList ++ [⟨sF, sStar, select⟩] }, none)
  else
    (task, some .dimensionMismatch)

/-- `setServo` records the servo mode (§4.2). -/
def vpServo.setServo (task : vpServo) (ty : ServoType) : vpServo :=
  { task with servoType := some ty }

/-- `setInteractionMatrixType` records the interaction-matrix mode (§4.2). -/
def vpServo.setInteractionMatrixType (task : vpServo)
    (ty : InteractionMatrixType) : vpServo :=
  { task with interactionType := ty }

/-- `setLambda` records a constant gain (§4.2). -/
def vpServo.setLambda (task : vpServo) (l : ℝ) : vpServo :=
  { task with lambda := some (.constant l) }

/-- `setAdaptiveGain` records the adaptive gain parameters (§4.2). -/
def vpServo.setAdaptiveGain (task : vpServo) (l0 li sl : ℝ) : vpServo :=
  { task with lambda := some (.adaptive l0 li sl) }

/-- Modelled from the spec (§4.2 step 1): the pair's interaction block under
the configured mode — CURRENT uses the current feature's block, DESIRED the
desired one's (recomputed each call), MEAN their arithmetic average. -/
noncomputable def interactionBlock (ty : InteractionMatrixType) (p : FeaturePair) :
    List (List ℝ) :=
  match ty with
  | .CURRENT => p.current.L
  | .DESIRED => p.desired.L
  | .MEAN => List.zipWith (List.zipWith (fun a b => (a + b) / 2)) p.current.L p.desired.L

/-- The stacked interaction matrix, as the concatenation in insertion order
of each pair's mask-selected block rows (§4.2 step 1). -/
noncomputable def vpServo.stackedL (task : vpServo) : List (List ℝ) :=
  (task.featureList.map
    (fun p => applyMask p.select (interactionBlock task.interactionType p))).flatten

/-- The stacked error vector, as the concatenation in insertion order of each
pair's mask-selected error components (§4.2 step 1). -/
noncomputable def vpServo.stackedError (task : vpServo) : List ℝ :=
  (task.featureList.map
    (fun p => applyMask p.select
      (List.zipWith (fun a b => a - b) p.current.s p.desired.s))).flatten

/-- The stacked interaction matrix as a `Matrix` value (rows indexed by the
stacked row list, 6 columns = camera twist degrees of freedom). -/
noncomputable def vpServo.Lmat (task : vpServo) :
    Matrix (Fin task.stackedL.length) (Fin 6) ℝ :=
  Matrix.of fun i j => (task.stackedL.getD i.1 []).getD j.1 0

/-- The stacked error as a vector indexed like the rows of `Lmat`. -/
noncomputable def vpServo.eVec (task : vpServo) : Fin task.stackedL.length → ℝ :=
  fun i => task.stackedError.getD i.1 0

/-- The four Penrose conditions: `M` is the Moore–Penrose pseudo-inverse of
`A` (§4.3). -/
def IsMPInv {m n : ℕ} (A : Matrix (Fin m) (Fin n) ℝ)
    (M : Matrix (Fin n) (Fin m) ℝ) : Prop :=
  A * M * A = A ∧ M * A * M = M ∧ (A * M)ᵀ = A * M ∧ (M * A)ᵀ = M * A

open Classical in
/-- Modelled from the spec (§4.3): the Pseudo-Inverse Service returns the
Moore–Penrose pseudo-inverse of a general `m×n` matrix (zero when none
exists in the model).  It is characterised by the Penrose conditions, which
pin it down uniquely. -/
noncomputable def pinv {m n : ℕ} (A : Matrix (Fin m) (Fin n) ℝ) :
    Matrix (Fin n) (Fin m) ℝ :=
  if h : ∃ M, IsMPInv A M then h.choose else 0

/-- Euclidean norm of an error vector, `‖e‖ = sqrt (Σ eᵢ²)`. -/
noncomputable def vnorm (e : List ℝ) : ℝ :=
  Real.sqrt ((e.map (fun x => x * x)).sum)

/-- Primary task velocity (§4.2 step 3): `v = −λ(‖e‖) · L⁺ · e`. -/
noncomputable def vpServo.rawVelocity (task : vpServo) (g : GainLaw) :
    Fin 6 → ℝ :=
  (-(g.value (vnorm task.stackedError))) • (pinv task.Lmat).mulVec task.eVec

/-- What one `computeControlLaw` call hands back: the velocity command, the
stacked error and interaction rows, and the effective rank found by the
Pseudo-Inverse Service (§4.2 step 6, §7). -/
structure ControlResult where
  v : Fin 6 → ℝ
  e : List ℝ
  Lrows : List (List ℝ)
  rank : ℕ

/-- The explicit degraded-rank status (§7 `SingularityDegraded`): the
effective rank fell short of the maximum the stack admits. -/
def ControlResult.rankDeficient (r : ControlResult) : Prop :=
  r.rank < min r.Lrows.length 6

/-- Modelled from the spec (§4.2): `computeControlLaw` fails with
`ConfigurationError` when the servo mode or gain is unset or no pair was
added; otherwise it stacks `L` and `e`, computes `v = −λ(‖e‖)·L⁺·e`, stores
`e` and `L` on the task for introspection, and reports the effective rank.
The frame transform of step 5 is the identity for camera-frame output; the
joint-space transforms need the robot collaborator and stay outside this
model. -/
noncomputable def vpServo.computeControlLaw (task : vpServo) :
    Except VsError (ControlResult × vpServo) :=
  match task.servoType, task.lambda with
  | none, _ => .error .configurationError
  | some _, none => .error .configurationError
  | some _, some g =>
    if task.featureList.isEmpty then .error .configurationError
    else
      .ok ({ v := task.rawVelocity g, e := task.stackedError,
             Lrows := task.stackedL, rank := task.Lmat.rank },
           { task with error := task.stackedError, L := task.stackedL })

/-- Modelled from the spec (§3, §9): each stacked entry's desired feature is
tagged owned (engine auto-built it) or borrowed (externally supplied);
features are referenced by identity (an id into the caller's store). -/
structure StackedEntry where
  desiredId : ℕ
  owned : Bool

/-- The ids `kill()` releases: exactly the owned desired features (§4.2). -/
def killReleases (entries : List StackedEntry) : List ℕ :=
  (entries.filter (fun en => en.owned)).map (fun en => en.desiredId)

/-- Modelled from the spec (§4.2): the effect of `kill()` on the feature
store — owned auto-built desired features are released, every other stored
feature is left untouched. -/
def killStore (entries : List StackedEntry)
    (store : ℕ → Option vpBasicFeature) : ℕ → Option vpBasicFeature :=
  fun i => if i ∈ killReleases entries then none else store i

/-- Modelled from the source header `vpFeaturePoint.h`: a 2D point visual
feature holds image-plane coordinates `x`, `y` and the depth `Z` needed by
the interaction matrix. -/
structure vpFeaturePoint where
  x : ℝ
  y : ℝ
  Z : ℝ

/-- Modelled from the spec and the header comment (`vpFeaturePoint.h`
lines 188–190: "default Z = 1m"): the state `init()` gives a
default-constructed point feature. -/
def vpFeaturePoint.init : vpFeaturePoint :=
  { x := 0, y := 0, Z := 1 }

/-- Accessor for the depth parameter (`vpFeaturePoint.h` line 219). -/
def vpFeaturePoint.get_Z (p : vpFeaturePoint) : ℝ := p.Z

/-- Modelled from the spec (§4.1): the point feature's interaction block —
one row per coordinate, each row depending on the depth `Z` supplied
separately. -/
noncomputable def vpFeaturePoint.interaction (p : vpFeaturePoint) :
    List (List ℝ) :=
  [[-1 / p.Z, 0, p.x / p.Z, p.x * p.y, -(1 + p.x ^ 2), p.y],
   [0, -1 / p.Z, p.y / p.Z, 1 + p.y ^ 2, -(p.x * p.y), -p.x]]

/-- The point feature as a generic stacked feature. -/
noncomputable def vpFeaturePoint.toBasic (p : vpFeaturePoint) : vpBasicFeature :=
  { kind := .point, s := [p.x, p.y], L := p.interaction }

/-- Modelled from the spec (§4.4): the null-space projector `P = I − L⁺L`
used to inject secondary objectives without disturbing the primary task. -/
noncomputable def nullProjector {m n : ℕ} (A : Matrix (Fin m) (Fin n) ℝ) :
    Matrix (Fin n) (Fin n) ℝ :=
  1 - pinv A * A

/-- A 3D translation feature at value `(1,0,0)` whose interaction block is
the identity occupying the translation columns. -/
noncomputable def tFeat : vpBasicFeature :=
  { kind := .translation, s := [1, 0, 0],
    L := [[1, 0, 0, 0, 0, 0], [0, 1, 0, 0, 0, 0], [0, 0, 1, 0, 0, 0]] }

/-- The matching desired translation feature at `(0,0,0)`. -/
noncomputable def tFeatStar : vpBasicFeature :=
  { kind := .translation, s := [0, 0, 0],
    L := [[1, 0, 0, 0, 0, 0], [0, 1, 0, 0, 0, 0], [0, 0, 1, 0, 0, 0]] }

/-- The exact-case task of §8: a single translation pair, identity
interaction block, constant gain 1, eye-in-hand camera mode. -/
noncomputable def c1Task : vpServo :=
  { featureList := [⟨tFeat, tFeatStar, [true, true, true]⟩],
    servoType := some .EYEINHAND_CAMERA, interactionType := .CURRENT,
    lambda := some (.constant 1), error := [], L := [] }

/-- A point feature value used by the concrete witnesses. -/
noncomputable def pFeat : vpBasicFeature :=
  { kind := .point, s := [0, 0],
    L := [[-1, 0, 0, 0, -1, 0], [0, -1, 0, 1, 0, 0]] }

/-- A concrete row matrix with orthonormal rows, for the witnesses. -/
noncomputable def c4A : Matrix (Fin 1) (Fin 2) ℝ := !![1, 0]

/-- A degenerate one-component feature whose interaction row is zero, making
the stacked matrix rank deficient. -/
noncomputable def zFeat : vpBasicFeature :=
  { kind := .translation, s := [0], L := [[0, 0, 0, 0, 0, 0]] }

/-- A configured task whose stacked interaction matrix is the zero matrix. -/
noncomputable def c6Task : vpServo :=
  { featureList := [⟨zFeat, zFeat, [true]⟩],
    servoType := some .EYEINHAND_CAMERA, interactionType := .CURRENT,
    lambda := some (.constant 1), error := [], L := [] }

theorem IsMPInv.unique {m n : ℕ} {A : Matrix (Fin m) (Fin n) ℝ}
    {M N : Matrix (Fin n) (Fin m) ℝ} (hM : IsMPInv A M) (hN : IsMPInv A N) :
    M = N := by
  obtain ⟨hM1, hM2, hM3, hM4⟩ := hM
  obtain ⟨hN1, hN2, hN3, hN4⟩ := hN
  have hAM : A * M = A * N := by
    calc A * M = (A * N * A) * M := by rw [hN1]
    _ = (A * N) * (A * M) := by rw [Matrix.mul_assoc (A * N) A M]
    _ = (A * N)ᵀ * (A * M)ᵀ := by rw [hN3, hM3]
    _ = (Nᵀ * Aᵀ) * (Mᵀ * Aᵀ) := by rw [Matrix.transpose_mul, Matrix.transpose_mul]
    _ = Nᵀ * (Aᵀ * Mᵀ * Aᵀ) := by simp only [Matrix.mul_assoc]
    _ = Nᵀ * (A * M * A)ᵀ := by
        rw [Matrix.transpose_mul (A * M) A, Matrix.transpose_mul A M]
        simp only [Matrix.mul_assoc]
    _ = Nᵀ * Aᵀ := by rw [hM1]
    _ = (A * N)ᵀ := (Matrix.transpose_mul A N).symm
    _ = A * N := hN3
  have hMA : M * A = N * A := by
    calc M * A = M * (A * N * A) := by rw [hN1]
    _ = (M * A) * (N * A) := by simp only [Matrix.mul_assoc]
    _ = (M * A)ᵀ * (N * A)ᵀ := by rw [hM4, hN4]
    _ = (Aᵀ * Mᵀ) * (Aᵀ * Nᵀ) := by rw [Matrix.transpose_mul, Matrix.transpose_mul]
    _ = (Aᵀ * Mᵀ * Aᵀ) * Nᵀ := by simp only [Matrix.mul_assoc]
    _ = (A * M * A)ᵀ * Nᵀ := by
        rw [Matrix.transpose_mul (A * M) A, Matrix.transpose_mul A M]
        simp only [Matrix.mul_assoc]
    _ = Aᵀ * Nᵀ := by rw [hM1]
    _ = (N * A)ᵀ := (Matrix.transpose_mul N A).symm
    _ = N * A := hN4
  calc M = M * A * M := hM2.symm
  _ = (N * A) * M := by rw [hMA]
  _ = N * (A * M) := by rw [Matrix.mul_assoc]
  _ = N * (A * N) := by rw [hAM]
  _ = N * A * N := by rw [Matrix.mul_assoc]
  _ = N := hN2

theorem pinv_isMPInv {m n : ℕ} {A : Matrix (Fin m) (Fin n) ℝ}
    (h : ∃ M, IsMPInv A M) : IsMPInv A (pinv A) := by
  unfold pinv
  rw [dif_pos h]
  exact h.choose_spec

theorem pinv_eq {m n : ℕ} {A : Matrix (Fin m) (Fin n) ℝ}
    {M : Matrix (Fin n) (Fin m) ℝ} (h : IsMPInv A M) : pinv A = M :=
  (pinv_isMPInv ⟨M, h⟩).unique h

/-- A matrix with orthonormal rows has its transpose as Moore–Penrose
pseudo-inverse. -/
theorem isMPInv_transpose {m n : ℕ} {A : Matrix (Fin m) (Fin n) ℝ}
    (h : A * Aᵀ = 1) : IsMPInv A Aᵀ := by
  refine ⟨?_, ?_, ?_, ?_⟩
  · rw [h, Matrix.one_mul]
  · rw [Matrix.mul_assoc, h, Matrix.mul_one]
  · rw [h, Matrix.transpose_one]
  · rw [Matrix.transpose_mul, Matrix.transpose_transpose]

theorem isMPInv_zero {m n : ℕ} :
    IsMPInv (0 : Matrix (Fin m) (Fin n) ℝ) 0 := by
  refine ⟨by simp, by simp, by simp, by simp⟩

theorem applyMask_length (sel : List Bool) (l : List α) :
    (applyMask sel l).length = (sel.take l.length).count true := by
  induction sel generalizing l with
  | nil => simp [applyMask]
  | cons b sel ih =>
    cases l with
    | nil => cases b <;> simp [applyMask]
    | cons x xs =>
      cases b <;> simp [applyMask, ih, List.count_cons]

/-- The length of `applyMask` depends only on the mask and the list's
length. -/
theorem applyMask_length_congr (sel : List Bool) {l₁ : List α} {l₂ : List β}
    (h : l₁.length = l₂.length) :
    (applyMask sel l₁).length = (applyMask sel l₂).length := by
  rw [applyMask_length, applyMask_length, h]

theorem interactionBlock_length (ty : InteractionMatrixType) (p : FeaturePair)
    (hp : p.WF) : (interactionBlock ty p).length = p.current.s.length := by
  obtain ⟨h1, h2, h3⟩ := hp
  cases ty <;> simp [interactionBlock, h2, h3, h1]

theorem stackedL_length (task : vpServo)
    (h : ∀ p ∈ task.featureList, p.WF) :
    task.stackedL.length = (task.featureList.map FeaturePair.selCount).sum := by
  unfold vpServo.stackedL
  rw [List.length_flatten, List.map_map]
  congr 1
  apply List.map_congr_left
  intro p hp
  show (applyMask p.select (interactionBlock task.interactionType p)).length = _
  rw [applyMask_length, interactionBlock_length task.interactionType p (h p hp)]
  rfl

theorem stackedError_length (task : vpServo)
    (h : ∀ p ∈ task.featureList, p.WF) :
    task.stackedError.length = (task.featureList.map FeaturePair.selCount).sum := by
  unfold vpServo.stackedError
  rw [List.length_flatten, List.map_map]
  congr 1
  apply List.map_congr_left
  intro p hp
  show (applyMask p.select
    (List.zipWith (fun a b => a - b) p.current.s p.desired.s)).length = _
  rw [applyMask_length, List.length_zipWith, (h p hp).1, min_self]
  rw [← (h p hp).1]
  rfl

/-- On a configured task, `computeControlLaw` succeeds and hands back the
primary velocity, the stacked error and rows, the effective rank, and the
task with `e`/`L` stored for introspection. -/
theorem computeControlLaw_ok (task : vpServo) (mode : ServoType) (g : GainLaw)
    (hm : task.servoType = some mode) (hg : task.lambda = some g)
    (hne : task.featureList.isEmpty = false) :
    task.computeControlLaw = .ok
      ({ v := task.rawVelocity g, e := task.stackedError,
         Lrows := task.stackedL, rank := task.Lmat.rank },
       { task with error := task.stackedError, L := task.stackedL }) := by
  simp only [vpServo.computeControlLaw, hm, hg, hne, Bool.false_eq_true, if_false]

/-- Claim C2: after a successful `computeControlLaw`, the stacked
interaction matrix's row count, the stacked error vector's length, and the
sum of the pairs' selected-component counts coincide, whatever the number
of pairs and their masks. -/
theorem claim_C2_stacking_invariant (task : vpServo) (r : ControlResult)
    (t' : vpServo) (hwf : ∀ p ∈ task.featureList, p.WF)
    (hok : task.computeControlLaw = .ok (r, t')) :
    r.Lrows.length = r.e.length ∧
    r.e.length = (task.featureList.map FeaturePair.selCount).sum := by
  have hL : r.Lrows = task.stackedL ∧ r.e = task.stackedError := by
    cases hm : task.servoType with
    | none => simp [vpServo.computeControlLaw, hm] at hok
    | some mode =>
      cases hg : task.lambda with
      | none => simp [vpServo.computeControlLaw, hm, hg] at hok
      | some g =>
        cases hne : task.featureList.isEmpty with
        | true => simp [vpServo.computeControlLaw, hm, hg, hne] at hok
        | false =>
          have h0 := computeControlLaw_ok task mode g hm hg hne
          rw [hok, Except.ok.injEq, Prod.mk.injEq] at h0
          obtain ⟨hr, ht⟩ := h0
          subst hr
          exact ⟨rfl, rfl⟩
  rw [hL.1, hL.2, stackedL_length task hwf, stackedError_length task hwf]
  exact ⟨rfl, rfl⟩

theorem claim_C2_witness :
    ∃ (r : ControlResult) (t' : vpServo),
      c1Task.computeControlLaw = .ok (r, t') ∧
      r.Lrows.length = r.e.length ∧
      r.e.length = (c1Task.featureList.map FeaturePair.selCount).sum := by
  have hok : c1Task.computeControlLaw = .ok
      ({ v := c1Task.rawVelocity (.constant 1), e := c1Task.stackedError,
         Lrows := c1Task.stackedL, rank := c1Task.Lmat.rank },
       { c1Task with error := c1Task.stackedError, L := c1Task.stackedL }) := rfl
  have hwf : ∀ p ∈ c1Task.featureList, p.WF := by
    intro p hp
    simp only [c1Task, List.mem_singleton] at hp
    subst hp
    exact ⟨rfl, rfl, rfl⟩
  obtain ⟨h1, h2⟩ := claim_C2_stacking_invariant c1Task _ _ hwf hok
  exact ⟨_, _, hok, h1, h2⟩

/-- Claim C3: `computeControlLaw` fails with `ConfigurationError` exactly
when the servo mode is unset, the gain is unset, or no pair was added; when
all three preconditions hold the call never raises `ConfigurationError`. -/
theorem claim_C3_configuration_error (task : vpServo) :
    task.computeControlLaw = .error .configurationError ↔
      (task.servoType = none ∨ task.lambda = none ∨ task.featureList = []) := by
  cases hm : task.servoType <;> cases hg : task.lambda <;>
    cases hl : task.featureList <;>
    simp [vpServo.computeControlLaw, hm, hg, hl]

/-- Claim C8: a second `computeControlLaw` call on the task state a first
successful call returns (no feature mutation in between) yields the same
velocity and the same error vector — the engine only reads feature content. -/
theorem claim_C8_idempotent (task : vpServo) (r₁ : ControlResult)
    (t₁ : vpServo) (h : task.computeControlLaw = .ok (r₁, t₁)) :
    ∃ r₂ t₂, t₁.computeControlLaw = .ok (r₂, t₂) ∧ r₂.v = r₁.v ∧ r₂.e = r₁.e := by
  cases hm : task.servoType with
  | none => simp [vpServo.computeControlLaw, hm] at h
  | some mode =>
    cases hg : task.lambda with
    | none => simp [vpServo.computeControlLaw, hm, hg] at h
    | some g =>
      cases hne : task.featureList.isEmpty with
      | true => simp [vpServo.computeControlLaw, hm, hg, hne] at h
      | false =>
        have h0 := computeControlLaw_ok task mode g hm hg hne
        rw [h, Except.ok.injEq, Prod.mk.injEq] at h0
        obtain ⟨hr, ht⟩ := h0
        subst hr
        subst ht
        have h1 := computeControlLaw_ok
          { task with error := task.stackedError, L := task.stackedL }
          mode g hm hg hne
        exact ⟨_, _, h1, rfl, rfl⟩

theorem claim_C8_witness :
    ∃ r₁ t₁ r₂ t₂, c1Task.computeControlLaw = .ok (r₁, t₁) ∧
      t₁.computeControlLaw = .ok (r₂, t₂) ∧ r₂.v = r₁.v ∧ r₂.e = r₁.e := by
  have hok : c1Task.computeControlLaw = .ok
      ({ v := c1Task.rawVelocity (.constant 1), e := c1Task.stackedError,
         Lrows := c1Task.stackedL, rank := c1Task.Lmat.rank },
       { c1Task with error := c1Task.stackedError, L := c1Task.stackedL }) := rfl
  obtain ⟨r₂, t₂, h2, hv, he⟩ := claim_C8_idempotent c1Task _ _ hok
  exact ⟨_, _, r₂, t₂, hok, h2, hv, he⟩

/-- Claim C7: `addFeature` fails with `DimensionMismatch` exactly when the
two features differ in kind or dimension, leaving the task unchanged in the
failing case; a feature's `error` fails with `DimensionMismatch` under the
same condition, and is a pure computation otherwise. -/
theorem claim_C7_dimension_mismatch (task : vpServo)
    (sF sStar : vpBasicFeature) (select : List Bool) :
    ((task.addFeature sF sStar select).2 = some .dimensionMismatch ↔
      (sF.kind ≠ sStar.kind ∨ sF.s.length ≠ sStar.s.length)) ∧
    ((sF.kind ≠ sStar.kind ∨ sF.s.length ≠ sStar.s.length) →
      (task.addFeature sF sStar select).1 = task) ∧
    (sF.error sStar select = .error .dimensionMismatch ↔
      (sF.kind ≠ sStar.kind ∨ sF.s.length ≠ sStar.s.length)) ∧
    (sF.kind = sStar.kind → sF.s.length = sStar.s.length →
      sF.error sStar select =
        .ok (applyMask select (List.zipWith (fun a b => a - b) sF.s sStar.s))) := by
  by_cases hc : sF.kind = sStar.kind ∧ sF.s.length = sStar.s.length
  · constructor
    · simp [vpServo.addFeature, hc]
    constructor
    · intro hmis
      rcases hmis with hk | hd
      · exact absurd hc.1 hk
      · exact absurd hc.2 hd
    constructor
    · simp [vpBasicFeature.error, hc]
    · intro _ _
      simp [vpBasicFeature.error, hc]
  · constructor
    · simp [vpServo.addFeature, hc]
      tauto
    constructor
    · intro _
      simp [vpServo.addFeature, hc]
    constructor
    · simp [vpBasicFeature.error, hc]
      tauto
    · intro hk hd
      exact absurd ⟨hk, hd⟩ hc

theorem claim_C7_witness :
    ((vpServo.init.addFeature pFeat tFeatStar [true]).2 =
        some .dimensionMismatch) ∧
    (vpServo.init.addFeature pFeat tFeatStar [true]).1 = vpServo.init := by
  have h := claim_C7_dimension_mismatch vpServo.init pFeat tFeatStar [true]
  have hk : pFeat.kind ≠ tFeatStar.kind := by
    intro hcon
    simp [pFeat, tFeatStar] at hcon
  exact ⟨h.1.mpr (Or.inl hk), h.2.1 (Or.inl hk)⟩

/-- Claim C9: `kill` releases exactly the engine-owned (auto-built) desired
features; a borrowed feature survives the kill with its stored value intact
and can be added to a second, independent task. -/
theorem claim_C9_kill_ownership (entries : List StackedEntry)
    (store : ℕ → Option vpBasicFeature) (b : ℕ) (f : vpBasicFeature)
    (task2 : vpServo) (select : List Bool)
    (hb : ∀ en ∈ entries, en.owned → en.desiredId ≠ b)
    (hf : store b = some f) :
    (∀ i, i ∈ killReleases entries ↔
      ∃ en ∈ entries, en.owned ∧ en.desiredId = i) ∧
    killStore entries store b = some f ∧
    (task2.addFeature f f select).2 = none ∧
    (task2.addFeature f f select).1.featureList =
      task2.featureList ++ [⟨f, f, select⟩] := by
  have hmem : ∀ i, i ∈ killReleases entries ↔
      ∃ en ∈ entries, en.owned ∧ en.desiredId = i := by
    intro i
    simp [killReleases, List.mem_map, List.mem_filter]
    tauto
  refine ⟨hmem, ?_, ?_, ?_⟩
  · unfold killStore
    rw [if_neg, hf]
    intro hin
    obtain ⟨en, hen, how, hid⟩ := (hmem b).mp hin
    exact hb en hen how hid
  · simp [vpServo.addFeature]
  · simp [vpServo.addFeature]

theorem claim_C9_witness :
    killStore [⟨0, true⟩, ⟨1, false⟩]
        (fun i => if i = 1 then some pFeat else none) 1 = some pFeat ∧
    (vpServo.init.addFeature pFeat pFeat [true, true]).2 = none ∧
    (0 ∈ killReleases [⟨0, true⟩, ⟨1, false⟩] ∧
      1 ∉ killReleases [⟨0, true⟩, ⟨1, false⟩]) := by
  have h := claim_C9_kill_ownership [⟨0, true⟩, ⟨1, false⟩]
    (fun i => if i = 1 then some pFeat else none) 1 pFeat
    vpServo.init [true, true]
    (by intro en hen how
        simp at hen
        rcases hen with h0 | h1
        · subst h0; decide
        · subst h1; simp at how)
    (by simp)
  refine ⟨h.2.1, h.2.2.1, ?_, ?_⟩
  · exact (h.1 0).mpr ⟨⟨0, true⟩, by simp, rfl, rfl⟩
  · intro hin
    obtain ⟨en, hen, how, hid⟩ := (h.1 1).mp hin
    simp at hen
    rcases hen with h0 | h1
    · subst h0; simp at hid
    · subst h1; simp at how

/-- Claim C10: a default-constructed `vpFeaturePoint` has depth `Z = 1`
before any setter runs, so its interaction matrix is well defined (rows are
the finite values obtained with `Z = 1`, and `Z` is nonzero). -/
theorem claim_C10_default_depth :
    vpFeaturePoint.init.get_Z = 1 ∧
    vpFeaturePoint.init.Z ≠ 0 ∧
    vpFeaturePoint.init.interaction =
      [[-1, 0, 0, 0, -1, 0], [0, -1, 0, 1, 0, 0]] := by
  refine ⟨rfl, by norm_num [vpFeaturePoint.init], ?_⟩
  unfold vpFeaturePoint.interaction vpFeaturePoint.init
  norm_num

/-- Claim C5: for admissible parameters (`λ∞ < λ0`, positive slope) the
adaptive gain law satisfies `λ(0) = λ0`, tends to `λ∞` at infinity, and
decreases strictly in `‖e‖`; at `λ0 = 1`, `λ∞ = 0.1`, `slope = 1` the value
at `‖e‖ = 50/slope` is within `10⁻³` of `0.1`. -/
theorem claim_C5_adaptive_gain (l0 li sl : ℝ) (h : li < l0) (hsl : 0 < sl) :
    adaptiveLambda l0 li sl 0 = l0 ∧
    Filter.Tendsto (adaptiveLambda l0 li sl) Filter.atTop (nhds li) ∧
    StrictAnti (adaptiveLambda l0 li sl) ∧
    |adaptiveLambda 1 (1 / 10) 1 50 - 1 / 10| ≤ 1 / 1000 := by
  have hd : (0 : ℝ) < l0 - li := sub_pos.mpr h
  have ha : adaptiveLambda l0 li sl 0 = l0 := by
    unfold adaptiveLambda
    simp
  have hc : 0 < sl / (l0 - li) := div_pos hsl hd
  have harg : ∀ x : ℝ, -(sl * x) / (l0 - li) = -((sl / (l0 - li)) * x) := by
    intro x
    ring
  have hlin : Filter.Tendsto (fun x : ℝ => (sl / (l0 - li)) * x)
      Filter.atTop Filter.atTop :=
    (Filter.tendsto_const_mul_atTop_of_pos hc).mpr Filter.tendsto_id
  have hneg : Filter.Tendsto (fun x : ℝ => -((sl / (l0 - li)) * x))
      Filter.atTop Filter.atBot := Filter.tendsto_neg_atTop_atBot.comp hlin
  have hexp : Filter.Tendsto (fun x : ℝ => Real.exp (-((sl / (l0 - li)) * x)))
      Filter.atTop (nhds 0) := Real.tendsto_exp_atBot.comp hneg
  have hall := (hexp.const_mul (l0 - li)).add
    (tendsto_const_nhds : Filter.Tendsto (fun _ : ℝ => li) Filter.atTop (nhds li))
  have hfun : adaptiveLambda l0 li sl = fun x =>
      (l0 - li) * Real.exp (-((sl / (l0 - li)) * x)) + li := by
    funext x
    unfold adaptiveLambda
    rw [harg x]
  have hb : Filter.Tendsto (adaptiveLambda l0 li sl) Filter.atTop (nhds li) := by
    rw [hfun]
    simpa using hall
  have hmono : StrictAnti (adaptiveLambda l0 li sl) := by
    intro a b hab
    unfold adaptiveLambda
    have h1 : sl * a < sl * b := mul_lt_mul_of_pos_left hab hsl
    have hlt : -(sl * b) / (l0 - li) < -(sl * a) / (l0 - li) := by
      gcongr
    have hexp2 : Real.exp (-(sl * b) / (l0 - li)) <
        Real.exp (-(sl * a) / (l0 - li)) := Real.exp_lt_exp.mpr hlt
    have h3 := mul_lt_mul_of_pos_left hexp2 hd
    linarith
  have hnum : adaptiveLambda 1 (1 / 10) 1 50 - 1 / 10 =
      (9 / 10) * Real.exp (-(500 / 9)) := by
    unfold adaptiveLambda
    norm_num
  have hb1 : Real.exp ((-(500 / 9) : ℝ)) ≤ Real.exp (-55) :=
    Real.exp_le_exp.mpr (by norm_num)
  have hb2 : ((2 : ℝ) ^ (55 : ℕ)) ≤ Real.exp 55 := by
    have h1 : (2 : ℝ) ≤ Real.exp 1 := by
      have h2 := Real.exp_one_gt_d9
      linarith
    calc ((2 : ℝ) ^ (55 : ℕ)) ≤ (Real.exp 1) ^ (55 : ℕ) :=
          pow_le_pow_left₀ (by norm_num) h1 55
    _ = Real.exp 55 := by
        rw [← Real.exp_nat_mul]
        norm_num
  have hb3 : Real.exp ((-55 : ℝ)) ≤ ((2 : ℝ) ^ (55 : ℕ))⁻¹ := by
    rw [Real.exp_neg]
    exact inv_anti₀ (by positivity) hb2
  have hlast : |adaptiveLambda 1 (1 / 10) 1 50 - 1 / 10| ≤ 1 / 1000 := by
    rw [hnum, abs_of_pos (by positivity)]
    have hchain := le_trans hb1 hb3
    calc (9 / 10) * Real.exp ((-(500 / 9) : ℝ)) ≤
          (9 / 10) * ((2 : ℝ) ^ (55 : ℕ))⁻¹ := by nlinarith
    _ ≤ 1 / 1000 := by norm_num
  exact ⟨ha, hb, hmono, hlast⟩

theorem claim_C5_witness :
    adaptiveLambda 1 (1 / 10) 1 0 = 1 ∧
    Filter.Tendsto (adaptiveLambda 1 (1 / 10) 1) Filter.atTop (nhds (1 / 10)) ∧
    StrictAnti (adaptiveLambda 1 (1 / 10) 1) ∧
    |adaptiveLambda 1 (1 / 10) 1 50 - 1 / 10| ≤ 1 / 1000 :=
  claim_C5_adaptive_gain 1 (1 / 10) 1 (by norm_num) (by norm_num)

/-- Claim C4: whenever the Pseudo-Inverse Service's output satisfies the
Penrose conditions, the null-space projector `P = I − L⁺L` is idempotent and
symmetric — exactly, hence within the `1e-9` tolerance — and any secondary
velocity in the row space of `L` projects to zero. -/
theorem claim_C4_null_space_projector {m n : ℕ} (A : Matrix (Fin m) (Fin n) ℝ)
    (hA : IsMPInv A (pinv A)) :
    nullProjector A * nullProjector A = nullProjector A ∧
    (nullProjector A)ᵀ = nullProjector A ∧
    (∀ i j, |(nullProjector A * nullProjector A) i j - nullProjector A i j| ≤ 1e-9) ∧
    (∀ i j, |(nullProjector A)ᵀ i j - nullProjector A i j| ≤ 1e-9) ∧
    (∀ w : Fin m → ℝ, (nullProjector A).mulVec (Aᵀ.mulVec w) = 0) := by
  obtain ⟨h1, h2, h3, h4⟩ := hA
  have key : (pinv A * A) * (pinv A * A) = pinv A * A := by
    rw [← Matrix.mul_assoc, h2]
  have hidem : nullProjector A * nullProjector A = nullProjector A := by
    unfold nullProjector
    rw [sub_mul, one_mul, mul_sub, mul_one, key, sub_self, sub_zero]
  have hsymm : (nullProjector A)ᵀ = nullProjector A := by
    unfold nullProjector
    rw [Matrix.transpose_sub, Matrix.transpose_one, h4]
  have hrow : ∀ w : Fin m → ℝ, (nullProjector A).mulVec (Aᵀ.mulVec w) = 0 := by
    intro w
    have hMAAT : (pinv A * A) * Aᵀ = Aᵀ := by
      calc (pinv A * A) * Aᵀ = (pinv A * A)ᵀ * Aᵀ := by rw [h4]
      _ = (A * (pinv A * A))ᵀ := by rw [← Matrix.transpose_mul]
      _ = (A * pinv A * A)ᵀ := by rw [← Matrix.mul_assoc]
      _ = Aᵀ := by rw [h1]
    rw [Matrix.mulVec_mulVec]
    have hPA : nullProjector A * Aᵀ = 0 := by
      unfold nullProjector
      rw [Matrix.sub_mul, Matrix.one_mul, hMAAT, sub_self]
    rw [hPA, Matrix.zero_mulVec]
  refine ⟨hidem, hsymm, ?_, ?_, hrow⟩
  · intro i j
    rw [hidem, sub_self, abs_zero]
    norm_num
  · intro i j
    rw [hsymm, sub_self, abs_zero]
    norm_num

theorem c4A_orth : c4A * c4Aᵀ = 1 := by
  ext i j
  fin_cases i <;> fin_cases j <;>
    simp [c4A, Matrix.mul_apply, Fin.sum_univ_succ, Matrix.one_apply]

theorem claim_C4_witness :
    nullProjector c4A * nullProjector c4A = nullProjector c4A ∧
    (nullProjector c4A)ᵀ = nullProjector c4A ∧
    (nullProjector c4A).mulVec (c4Aᵀ.mulVec fun _ => 1) = 0 := by
  have hmp : IsMPInv c4A (pinv c4A) :=
    pinv_isMPInv ⟨c4Aᵀ, isMPInv_transpose c4A_orth⟩
  have H := claim_C4_null_space_projector c4A hmp
  exact ⟨H.1, H.2.1, H.2.2.2.2 (fun _ => 1)⟩

theorem c1_rows : c1Task.stackedL =
    [[1, 0, 0, 0, 0, 0], [0, 1, 0, 0, 0, 0], [0, 0, 1, 0, 0, 0]] := rfl

theorem c1_err : c1Task.stackedError = [1 - 0, 0 - 0, 0 - 0] := rfl

/-- Sums over the three stacked rows of the exact-case task, expanded. -/
theorem c1_sum (f : Fin c1Task.stackedL.length → ℝ) :
    ∑ x, f x = f ⟨0, by decide⟩ + (f ⟨1, by decide⟩ + (f ⟨2, by decide⟩ + 0)) :=
  rfl

theorem c1_orth : c1Task.Lmat * (c1Task.Lmat)ᵀ = 1 := by
  ext i j
  fin_cases i <;> fin_cases j <;>
    simp [vpServo.Lmat, c1_rows, Matrix.mul_apply, Fin.sum_univ_succ,
      Matrix.one_apply]

theorem c1_pinv : pinv c1Task.Lmat = (c1Task.Lmat)ᵀ :=
  pinv_eq (isMPInv_transpose c1_orth)

/-- Claim C1: on every configured task `computeControlLaw` returns the
primary velocity `v = −λ(‖e‖)·L⁺·e` built from the stacked interaction
matrix and stacked error; on the exact case (single translation feature,
current `(1,0,0)`, desired `(0,0,0)`, identity interaction block, constant
gain 1) the returned velocity is exactly `(−1,0,0,0,0,0)`. -/
theorem claim_C1_control_law :
    (∀ (task : vpServo) (mode : ServoType) (g : GainLaw),
      task.servoType = some mode → task.lambda = some g →
      task.featureList.isEmpty = false →
      ∃ r t', task.computeControlLaw = .ok (r, t') ∧
        r.v = (-(g.value (vnorm task.stackedError))) •
          (pinv task.Lmat).mulVec task.eVec) ∧
    (∃ r t', c1Task.computeControlLaw = .ok (r, t') ∧
      r.v = ![(-1 : ℝ), 0, 0, 0, 0, 0]) := by
  constructor
  · intro task mode g hm hg hne
    exact ⟨_, _, computeControlLaw_ok task mode g hm hg hne, rfl⟩
  · have hok : c1Task.computeControlLaw = .ok
        ({ v := c1Task.rawVelocity (.constant 1), e := c1Task.stackedError,
           Lrows := c1Task.stackedL, rank := c1Task.Lmat.rank },
         { c1Task with error := c1Task.stackedError, L := c1Task.stackedL }) := rfl
    refine ⟨_, _, hok, ?_⟩
    show c1Task.rawVelocity (.constant 1) = ![(-1 : ℝ), 0, 0, 0, 0, 0]
    unfold vpServo.rawVelocity
    rw [c1_pinv]
    simp only [GainLaw.value]
    funext j
    fin_cases j <;>
      · simp only [Pi.smul_apply, Matrix.mulVec, Matrix.dotProduct,
          Matrix.transpose_apply, smul_eq_mul]
        rw [c1_sum]
        norm_num [vpServo.Lmat, c1_rows, vpServo.eVec, c1_err]

theorem claim_C1_witness :
    ∃ r t', c1Task.computeControlLaw = .ok (r, t') ∧
      r.v = (-(GainLaw.value (.constant 1) (vnorm c1Task.stackedError))) •
        (pinv c1Task.Lmat).mulVec c1Task.eVec :=
  claim_C1_control_law.1 c1Task .EYEINHAND_CAMERA (.constant 1) rfl rfl rfl

/-- Claim C6: on a configured task whose stacked matrix lost rank, the call
still returns a velocity — the best-effort least-squares solution
`−λ(‖e‖)·L⁺·e` — together with the effective rank, and the degraded-rank
status holds exactly when the rank fell short, never silently reported as
exact. -/
theorem claim_C6_degraded_rank (task : vpServo) (mode : ServoType)
    (g : GainLaw) (hm : task.servoType = some mode) (hg : task.lambda = some g)
    (hne : task.featureList.isEmpty = false)
    (hdef : task.Lmat.rank < min task.stackedL.length 6) :
    ∃ r t', task.computeControlLaw = .ok (r, t') ∧
      r.v = (-(g.value (vnorm task.stackedError))) •
        (pinv task.Lmat).mulVec task.eVec ∧
      r.rank = task.Lmat.rank ∧
      r.rankDeficient ∧
      (∀ r' : ControlResult, r'.rankDeficient ↔ r'.rank < min r'.Lrows.length 6) := by
  refine ⟨_, _, computeControlLaw_ok task mode g hm hg hne, rfl, rfl, ?_, ?_⟩
  · exact hdef
  · intro r'
    exact Iff.rfl

theorem c6_Lmat : c6Task.Lmat = 0 := by
  ext i j
  fin_cases i <;> fin_cases j <;>
    · simp [vpServo.Lmat, show c6Task.stackedL = [[0, 0, 0, 0, 0, 0]] from rfl]
      try rfl

theorem claim_C6_witness :
    ∃ r t', c6Task.computeControlLaw = .ok (r, t') ∧ r.rankDeficient := by
  have hdef : c6Task.Lmat.rank < min c6Task.stackedL.length 6 := by
    rw [c6_Lmat, Matrix.rank_zero]
    decide
  obtain ⟨r, t', hok, _, _, hd, _⟩ :=
    claim_C6_degraded_rank c6Task .EYEINHAND_CAMERA (.constant 1) rfl rfl rfl hdef
  exact ⟨r, t', hok, hd⟩

end Visp
